import Mathlib

/-!
Shallow embedding of the motion-control core of the Strokegpt repository:
`script_generator.py` (procedural move generator), `handy_controller.py`
(device command mapper) and `background_modes.py` (mode loops, edging state
machine, replay sub-session), together with theorems settling the frozen
claims about them.

Randomness is modelled by oracles: `random.randint(lo, hi)` becomes
`randint lo hi t` where `t` is an arbitrary integer supplied by the oracle
and the result is folded into `[lo, hi]`; `random.uniform(lo, hi)` becomes
`uniformQ lo hi t`, clamping the oracle value into `[lo, hi]`.  Every value
in the ranges is realizable, so universally quantifying over oracle inputs
covers exactly the nondeterminism of the source.

Python `round` is banker's rounding; the source computes it on IEEE floats,
modelled here on exact rationals (for the generator, whose constants all
have fixed denominators, directly on scaled integers via `pyRoundQuot`).
-/

namespace Strokegpt

/-- Python `max(lo, min(hi, value))` — the `_clamp` helper of
`script_generator.py` and the shape of all bound enforcement in the core. -/
def clampZ (v lo hi : ℤ) : ℤ := max lo (min hi v)

/-- Banker's rounding (Python `round`) of the exact quotient `a / b`,
for a positive denominator `b`, computed with integer arithmetic:
`f = ⌊a/b⌋` (Int division in Lean is floor division for `b > 0`), and the
doubled remainder `2(a - f·b)` is compared with `b` to decide the half. -/
def pyRoundQuot (a b : ℤ) : ℤ :=
  let f := a / b
  let r2 := 2 * (a - f * b)
  if r2 < b then f else if b < r2 then f + 1 else if f % 2 = 0 then f else f + 1

/-- Model of `random.randint(lo, hi)`: the oracle value `t` is folded into
`[lo, hi]`; for `lo ≤ t ≤ hi` the draw is `t` itself (`randint_eq_self`). -/
def randint (lo hi t : ℤ) : ℤ := lo + (t - lo) % (hi - lo + 1)

theorem randint_mem (lo hi t : ℤ) (h : lo ≤ hi) :
    lo ≤ randint lo hi t ∧ randint lo hi t ≤ hi := by
  unfold randint
  have hne : hi - lo + 1 ≠ 0 := by omega
  have h1 := Int.emod_nonneg (t - lo) hne
  have h2 := Int.emod_lt_of_pos (t - lo) (show (0:ℤ) < hi - lo + 1 by omega)
  omega

theorem randint_eq_self (lo hi t : ℤ) (h1 : lo ≤ t) (h2 : t ≤ hi) :
    randint lo hi t = t := by
  unfold randint
  rw [Int.emod_eq_of_lt (by omega) (by omega)]
  omega

theorem clampZ_mem (v lo hi : ℤ) (h : lo ≤ hi) :
    lo ≤ clampZ v lo hi ∧ clampZ v lo hi ≤ hi := by
  simp only [clampZ]; omega

/-- Clamping into an interval that contains `p` cannot move a value further
from `p` than it already is (two-sided form, for delta bounds). -/
theorem clampZ_dist (x p lo hi d : ℤ) (h1 : lo ≤ p) (h2 : p ≤ hi)
    (h3 : -d ≤ x - p) (h4 : x - p ≤ d) :
    -d ≤ clampZ x lo hi - p ∧ clampZ x lo hi - p ≤ d := by
  simp only [clampZ]; omega

/-! ## Move-sequence generator (`script_generator.py`) -/

/-- One generated move, the dict `{"sp", "dp", "rng", "duration"}` built by
`generate_moves`. -/
structure SMove where
  sp : ℤ
  dp : ℤ
  rng : ℤ
  duration : ℤ
deriving DecidableEq, Repr

/-- The cue dictionary consumed by `generate_moves` (`cues.get(...)`);
absent keys are `false`. -/
structure Cues where
  fast : Bool := false
  slow : Bool := false
  tip_only : Bool := false
  base_only : Bool := false
  full : Bool := false
  coming : Bool := false
deriving DecidableEq, Repr

/-- A phase envelope: the `(min, max)` pairs for sp, dp, rng and duration of
one entry of the `ENVELOPES` dict in `generate_moves`. -/
structure Envelope where
  spMin : ℤ
  spMax : ℤ
  dpMin : ℤ
  dpMax : ℤ
  rngMin : ℤ
  rngMax : ℤ
  durMin : ℤ
  durMax : ℤ
deriving DecidableEq, Repr

/-- The `ENVELOPES` dict of `generate_moves`, with its `.get(phase_upper,
WARM-UP)` default for unknown phase names. -/
def ENVELOPES (name : String) : Envelope :=
  if name = "WARM-UP" then ⟨15, 35, 40, 60, 25, 45, 3000, 3500⟩
  else if name = "ACTIVE" then ⟨45, 85, 50, 80, 50, 80, 2500, 3000⟩
  else if name = "RECOVERY" then ⟨5, 15, 35, 55, 20, 40, 3500, 4500⟩
  else ⟨15, 35, 40, 60, 25, 45, 3000, 3500⟩

/-- The oracle values consumed by one iteration of the `for` loop in
`generate_moves`: one per `random.randint` / `random.random` call the
iteration can make (draws of branches not taken are unused). -/
structure Draws where
  baseSpT : ℤ := 0
  dpT : ℤ := 0
  rngT : ℤ := 0
  durT : ℤ := 0
  zoneDpT : ℤ := 0
  zoneRngT : ℤ := 0
  comingDpT : ℤ := 0
  comingRngT : ℤ := 0
  comingDurT : ℤ := 0
  holdT : Bool := false
  jitterT : ℤ := 0
deriving Repr

/-- Result of the zone-override `if/elif` chain of `generate_moves`:
possibly redrawn dp/rng plus the `dp_override` / `rng_override` flags. -/
structure ZonePick where
  dp : ℤ
  rng : ℤ
  dpOv : Bool
  rngOv : Bool
deriving DecidableEq, Repr

/-- The zone/amplitude override chain of `generate_moves` (first match
wins): tip∧base cancel out; otherwise tip/base/full combinations redraw dp
and rng and mark them overridden. -/
def zonePick (c : Cues) (dp rng : ℤ) (d : Draws) : ZonePick :=
  if c.tip_only && c.base_only then ⟨dp, rng, false, false⟩
  else if c.tip_only && c.full then
    ⟨randint 85 95 d.zoneDpT, randint 40 70 d.zoneRngT, true, true⟩
  else if c.base_only && c.full then
    ⟨randint 5 15 d.zoneDpT, randint 40 70 d.zoneRngT, true, true⟩
  else if c.full then
    ⟨randint 45 55 d.zoneDpT, randint 60 100 d.zoneRngT, true, true⟩
  else if c.tip_only then
    ⟨randint 85 95 d.zoneDpT, randint 10 20 d.zoneRngT, true, true⟩
  else if c.base_only then
    ⟨randint 5 15 d.zoneDpT, randint 10 20 d.zoneRngT, true, true⟩
  else ⟨dp, rng, false, false⟩

/-- The `coming` cue block of `generate_moves`: with no zone override yet it
redraws dp∈[45,55], rng∈[70,100] (both overridden); with a zone override it
clamps rng into [40,90] and marks rng overridden. -/
def comingPick (c : Cues) (z : ZonePick) (d : Draws) : ZonePick :=
  if c.coming then
    if !(z.dpOv || z.rngOv) then
      ⟨randint 45 55 d.comingDpT, randint 70 100 d.comingRngT, true, true⟩
    else ⟨z.dp, clampZ z.rng 40 90, z.dpOv, true⟩
  else z

/-- Duration of one move: the envelope draw, redrawn from [3500, 7000] when
the `coming` cue is set. -/
def durationPick (c : Cues) (env : Envelope) (d : Draws) : ℤ :=
  if c.coming then randint 3500 7000 d.comingDurT
  else randint env.durMin env.durMax d.durT

/-- `_compute_sp_adjusted(base_sp, dp, rng)`: the depth factor
`1 + 0.3·|dp−50|/50` is `(500 + 3·|dp−50|)/500` over a common denominator,
so `round(base_sp · d_factor)` is `pyRoundQuot (base_sp·(500+3·|dp−50|)) 500`,
then `_clamp(sp, 1, 100)`.  The `rng` argument is unused in the source. -/
def compute_sp_adjusted (base_sp dp _rng : ℤ) : ℤ :=
  clampZ (pyRoundQuot (base_sp * (500 + 3 * |dp - 50|)) 500) 1 100

/-- The speed cue bias of `generate_moves`: fast∧¬slow adds 8 (cap at
envelope max + 12, never above 100); slow∧¬fast subtracts 8 (floor at
envelope min − 5, never below 1). -/
def cueBias (c : Cues) (env : Envelope) (base_sp : ℤ) : ℤ :=
  let b1 := if c.fast && !c.slow then clampZ (base_sp + 8) env.spMin (min 100 (env.spMax + 12))
            else base_sp
  if c.slow && !c.fast then clampZ (b1 - 8) (max 1 (env.spMin - 5)) env.spMax else b1

/-- Speed smoothing, final clamp, RECOVERY cap and cadence hold for one move
of `generate_moves` (the sp strand of the loop body, lines 331-366):
delta-clamp against `_LAST_MOVE` (±6, then into [1,100]), clamp to the
envelope, `min(sp, 15)` in RECOVERY, and with probability 0.6 (`hold`)
replace sp by the previous in-batch speed plus jitter in [−5,5], clamped to
the envelope. -/
def smoothClampSp (env : Envelope) (phaseU : String) (lastM batchLast : Option SMove)
    (hold : Bool) (jitterT : ℤ) (sp : ℤ) : ℤ :=
  let s1 := match lastM with
    | some prev => clampZ (prev.sp + clampZ (sp - prev.sp) (-6) 6) 1 100
    | none => sp
  let s2 := clampZ s1 env.spMin env.spMax
  let s3 := if phaseU = "RECOVERY" then min s2 15 else s2
  match batchLast with
  | some prevB => if hold then clampZ (prevB.sp + randint (-5) 5 jitterT) env.spMin env.spMax
                  else s3
  | none => s3

/-- Depth smoothing and final clamp for one move of `generate_moves`:
delta-clamp against `_LAST_MOVE` (±10, then into [0,100]), then clamp to
the envelope unless `dp_override` (then only to [0,100]). -/
def smoothClampDp (env : Envelope) (ov : Bool) (lastM : Option SMove) (dp : ℤ) : ℤ :=
  let d1 := match lastM with
    | some prev => clampZ (prev.dp + clampZ (dp - prev.dp) (-10) 10) 0 100
    | none => dp
  if !ov then clampZ d1 env.dpMin env.dpMax else clampZ d1 0 100

/-- Range smoothing and final clamp, same shape as `smoothClampDp` with the
range envelope and `rng_override`. -/
def smoothClampRng (env : Envelope) (ov : Bool) (lastM : Option SMove) (rng : ℤ) : ℤ :=
  let r1 := match lastM with
    | some prev => clampZ (prev.rng + clampZ (rng - prev.rng) (-10) 10) 0 100
    | none => rng
  if !ov then clampZ r1 env.rngMin env.rngMax else clampZ r1 0 100

/-- One iteration of the `for` loop of `generate_moves`: draw from the
envelope, apply speed cues, zone and coming overrides, scale speed by
`rng / rng_ref` with `rng_ref = (rng_min + rng_max)/2` (as the scaled
integer quotient `2·base_sp·rng / (rng_min + rng_max)` when positive),
apply the depth factor, smooth, clamp, cap and optionally hold. -/
def genStep (c : Cues) (phaseU : String) (env : Envelope)
    (lastM batchLast : Option SMove) (d : Draws) : SMove :=
  let base_sp := randint env.spMin env.spMax d.baseSpT
  let dp0 := randint env.dpMin env.dpMax d.dpT
  let rng0 := randint env.rngMin env.rngMax d.rngT
  let base_sp := cueBias c env base_sp
  let z := comingPick c (zonePick c dp0 rng0 d) d
  let base_sp_scaled := if 0 < env.rngMin + env.rngMax
    then pyRoundQuot (2 * base_sp * z.rng) (env.rngMin + env.rngMax)
    else base_sp
  let sp0 := compute_sp_adjusted base_sp_scaled z.dp z.rng
  { sp := smoothClampSp env phaseU lastM batchLast d.holdT d.jitterT sp0
    dp := smoothClampDp env z.dpOv lastM z.dp
    rng := smoothClampRng env z.rngOv lastM z.rng
    duration := durationPick c env d }

/-- The accumulation loop of `generate_moves`: `lastM` is `_LAST_MOVE`, the
accumulator is the `moves` list (whose last element drives the cadence
hold), each produced move is appended and becomes `_LAST_MOVE`. -/
def genLoop (c : Cues) (phaseU : String) (env : Envelope) :
    Option SMove → List SMove → List Draws → List SMove
  | _, acc, [] => acc
  | lastM, acc, d :: ds =>
      let m := genStep c phaseU env lastM acc.getLast? d
      genLoop c phaseU env (some m) (acc ++ [m]) ds

/-- The module-level generator state of `script_generator.py`:
`_LAST_MOVE` and `_LAST_PHASE`. -/
structure GenState where
  lastMove : Option SMove := none
  lastPhase : Option String := none
deriving DecidableEq, Repr

/-- Python `str.upper()` restricted to its ASCII behaviour (all phase names
in the source are ASCII). -/
def pyUpper (s : String) : String := String.mk (s.data.map Char.toUpper)

/-- `generate_moves(phase, cues)` over an explicit draw list: uppercase the
phase, reset `_LAST_MOVE` when the phase changed, pick the envelope, run
the loop, and return the batch with the updated module state. -/
def generate_moves (phase : String) (c : Cues) (st : GenState) (ds : List Draws) :
    List SMove × GenState :=
  let phase_upper := pyUpper phase
  let lastM := if st.lastPhase ≠ some phase_upper then none else st.lastMove
  let env := ENVELOPES phase_upper
  let ms := genLoop c phase_upper env lastM [] ds
  (ms, ⟨ms.getLast?.orElse (fun _ => lastM), some phase_upper⟩)

/-- `num_moves = 10` in `generate_moves`. -/
def num_moves : ℕ := 10

/-- `generate_moves` exactly as the source runs it: ten loop iterations,
with the draw oracle indexed per iteration. -/
def generate (phase : String) (c : Cues) (st : GenState) (d : ℕ → Draws) :
    List SMove × GenState :=
  generate_moves phase c st ((List.range num_moves).map d)

/-- Derived (not part of the source): the value the `dp_override` and
`rng_override` flags of `generate_moves` take for a given cue set — they
are always equal, and true exactly when `coming` is set or a
non-cancelling zone cue (tip/base/full, not tip∧base) is present. -/
def dpOverridden (c : Cues) : Bool :=
  c.coming || (!(c.tip_only && c.base_only) && (c.tip_only || c.base_only || c.full))

/-- Well-formedness of a phase envelope (holds for all three entries of
`ENVELOPES`): nonempty ranges, speeds inside [1,100], dp/rng inside
[0,100]. -/
def EnvWF (env : Envelope) : Prop :=
  1 ≤ env.spMin ∧ env.spMin ≤ env.spMax ∧ env.spMax ≤ 100 ∧
  0 ≤ env.dpMin ∧ env.dpMin ≤ env.dpMax ∧ env.dpMax ≤ 100 ∧
  0 ≤ env.rngMin ∧ env.rngMin ≤ env.rngMax ∧ env.rngMax ≤ 100 ∧
  env.durMin ≤ env.durMax

/-- The bounds every move produced by `generate_moves` satisfies: speed in
the envelope; dp/rng in the envelope when no override applies, otherwise
only in [0,100]; duration in the envelope, or in [3500,7000] under the
`coming` cue. -/
def MoveOK (c : Cues) (env : Envelope) (m : SMove) : Prop :=
  (env.spMin ≤ m.sp ∧ m.sp ≤ env.spMax) ∧
  (dpOverridden c = true → 0 ≤ m.dp ∧ m.dp ≤ 100 ∧ 0 ≤ m.rng ∧ m.rng ≤ 100) ∧
  (dpOverridden c = false →
    env.dpMin ≤ m.dp ∧ m.dp ≤ env.dpMax ∧ env.rngMin ≤ m.rng ∧ m.rng ≤ env.rngMax) ∧
  (c.coming = true → 3500 ≤ m.duration ∧ m.duration ≤ 7000) ∧
  (c.coming = false → env.durMin ≤ m.duration ∧ m.duration ≤ env.durMax)

/-- The per-field smoothing bound between two consecutive moves of one
batch: |Δsp| ≤ 6, |Δdp| ≤ 10, |Δrng| ≤ 10 (the `MAX_DELTA` table of
`generate_moves`). -/
def SmoothStep (a b : SMove) : Prop :=
  |b.sp - a.sp| ≤ 6 ∧ |b.dp - a.dp| ≤ 10 ∧ |b.rng - a.rng| ≤ 10

/-! ## Device command mapper (`handy_controller.py`) -/

/-- Python `int(x)` applied to a number: truncation toward zero. -/
def pyTrunc (q : ℚ) : ℤ := if 0 ≤ q then ⌊q⌋ else -⌊-q⌋

/-- Python `round(x)` (round half to even) on an exact rational. -/
def pyRound (q : ℚ) : ℤ :=
  if q - ⌊q⌋ < 1/2 then ⌊q⌋
  else if (1 : ℚ)/2 < q - ⌊q⌋ then ⌊q⌋ + 1
  else if (⌊q⌋ : ℤ) % 2 = 0 then ⌊q⌋ else ⌊q⌋ + 1

/-- The device commands emitted by `HandyController` via `_send_command`
and their payloads: `hamp/stop`, `mode {"mode": 0}`, `hamp/start`,
`slide {"min", "max"}`, `hamp/velocity {"velocity"}`. -/
inductive HCmd
  | stopCmd
  | modeCmd (m : ℤ)
  | startCmd
  | slideCmd (lo hi : ℤ)
  | velocityCmd (v : ℤ)
deriving DecidableEq, Repr

/-- One attempted emission: the command of the PUT request and whether the
transport succeeded (`ok = false` is the caught-and-logged
`RequestException` branch of `_send_command`). -/
structure HEvent where
  cmd : HCmd
  ok : Bool
deriving DecidableEq, Repr

/-- The mutable state of a `HandyController` instance, with the `__init__`
defaults (`HANDY_MIN_SPAN`/`HANDY_PREF_SPAN` default to "0"). -/
structure HandyState where
  handy_key : String := ""
  last_relative_speed : ℤ := 50
  last_depth_pos : ℤ := 50
  last_stroke_speed : ℤ := 0
  min_user_speed : ℤ := 10
  max_user_speed : ℤ := 80
  min_handy_depth : ℤ := 0
  max_handy_depth : ℤ := 100
  MIN_SPAN_POINTS : ℤ := 0
  PREFERRED_SPAN_POINTS : ℤ := 0
  manual_mode_active : Bool := false
deriving DecidableEq, Repr

/-- `_send_command(path, body)`: without a key it returns without any
attempt; otherwise it attempts the PUT, and a transport failure
(`requests.exceptions.RequestException`) is caught and logged, so the call
always returns normally — modelled by the `ok` flag of the event. -/
def send_command (tr : HCmd → Bool) (st : HandyState) (c : HCmd) : List HEvent :=
  if st.handy_key = "" then [] else [⟨c, tr c⟩]

/-- `_pct(v)`: clamp a number into [0, 100]. -/
def pct (v : ℚ) : ℚ := max 0 (min 100 v)

/-- `stop()`: no-op without a key; otherwise emit `hamp/stop` and reset
`last_stroke_speed`, `last_relative_speed` and `_manual_mode_active`. -/
def stop (tr : HCmd → Bool) (st : HandyState) : HandyState × List HEvent :=
  if st.handy_key = "" then (st, [])
  else
    ({ st with last_stroke_speed := 0, last_relative_speed := 0, manual_mode_active := false },
     send_command tr st .stopCmd)

/-- `_ensure_manual_mode()`: if manual mode is already active do nothing;
otherwise emit `mode {"mode": 0}` then `hamp/start` and set the flag. -/
def ensure_manual_mode (tr : HCmd → Bool) (st : HandyState) : HandyState × List HEvent :=
  if st.manual_mode_active then (st, [])
  else
    ({ st with manual_mode_active := true },
     send_command tr st (.modeCmd 0) ++ send_command tr st .startCmd)

/-- Calibration width `float(max_handy_depth - min_handy_depth)`, defaulted
to 100.0 when ≤ 0. -/
def calibWidth (st : HandyState) : ℚ :=
  if ((st.max_handy_depth - st.min_handy_depth : ℤ) : ℚ) ≤ 0 then 100
  else ((st.max_handy_depth - st.min_handy_depth : ℤ) : ℚ)

/-- The span computation of `_apply_move_parameters`: requested span from
the relative range, raised to the preferred then the minimum span policy
when enabled, capped at `int(calib_w)`. -/
def spanAbs (st : HandyState) (rng_rel : ℚ) : ℤ :=
  let requested := pyRound ((rng_rel / 100) * calibWidth st)
  let s1 := if 0 < st.PREFERRED_SPAN_POINTS then max requested st.PREFERRED_SPAN_POINTS
            else requested
  let s2 := if 0 < st.MIN_SPAN_POINTS then max s1 st.MIN_SPAN_POINTS else s1
  min s2 (pyTrunc (calibWidth st))

/-- `center_abs = min_handy_depth + calib_w * (dp_rel / 100.0)`. -/
def centerAbs (st : HandyState) (dp_rel : ℚ) : ℚ :=
  (st.min_handy_depth : ℚ) + calibWidth st * (dp_rel / 100)

/-- The raw slide window of `_apply_move_parameters` before boundary
correction: `round(center ∓ span/2)`. -/
def rawSlide (st : HandyState) (dp_rel rng_rel : ℚ) : ℤ × ℤ :=
  let half : ℚ := (spanAbs st rng_rel : ℤ) / 2
  (pyRound (centerAbs st dp_rel - half), pyRound (centerAbs st dp_rel + half))

/-- The boundary-corrected slide window: shift to [0, min(100, span)] when
the raw min is negative, then to [max(0, 100−span), 100] when the max
exceeds 100, then swap if inverted. -/
def correctedSlide (st : HandyState) (dp_rel rng_rel : ℚ) : ℤ × ℤ :=
  let span := spanAbs st rng_rel
  let p0 := rawSlide st dp_rel rng_rel
  let p1 := if p0.1 < 0 then ((0 : ℤ), min 100 (0 + span)) else p0
  let p2 := if 100 < p1.2 then (max 0 (100 - span), (100 : ℤ)) else p1
  if p2.2 < p2.1 then (p2.2, p2.1) else p2

/-- `final_vel = round(min_user_speed + speed_w * (sp_rel / 100.0))` with a
negative speed width treated as 0. -/
def finalVel (st : HandyState) (sp_rel : ℚ) : ℤ :=
  let w : ℚ := ((st.max_user_speed - st.min_user_speed : ℤ) : ℚ)
  let w := if w < 0 then 0 else w
  pyRound ((st.min_user_speed : ℚ) + w * (sp_rel / 100))

/-- `_apply_move_parameters(sp_rel, dp_rel, rng_rel)`: emit the corrected
slide window and the velocity, then update the telemetry fields to the
intended (post-clamp) values regardless of transport outcome. -/
def apply_move_parameters (tr : HCmd → Bool) (st : HandyState) (sp_rel dp_rel rng_rel : ℚ) :
    HandyState × List HEvent :=
  let w := correctedSlide st dp_rel rng_rel
  let e1 := send_command tr st (.slideCmd w.1 w.2)
  let v := finalVel st sp_rel
  let e2 := send_command tr st (.velocityCmd v)
  ({ st with last_relative_speed := pyRound sp_rel,
             last_depth_pos := pyRound dp_rel,
             last_stroke_speed := v },
   e1 ++ e2)

/-- `move(speed, depth, stroke_range)`: no-op without a key; `int(float(
speed)) == 0` delegates to `stop()`; otherwise normalize the three inputs
with `_pct`, ensure manual mode once, and apply the parameters. -/
def move (tr : HCmd → Bool) (st : HandyState) (speed depth stroke_range : ℚ) :
    HandyState × List HEvent :=
  if st.handy_key = "" then (st, [])
  else if pyTrunc speed = 0 then stop tr st
  else
    let sp_rel := pct speed
    let dp_rel := pct depth
    let rng_rel := pct stroke_range
    let r1 := ensure_manual_mode tr st
    let r2 := apply_move_parameters tr r1.1 sp_rel dp_rel rng_rel
    (r2.1, r1.2 ++ r2.2)

/-- Recogniser for the "set manual mode" command, for counting the
manual-mode setup pair in emission lists. -/
def isModeCmd : HEvent → Bool
  | ⟨.modeCmd _, _⟩ => true
  | _ => false

/-- Recogniser for the `hamp/start` command. -/
def isStartCmd : HEvent → Bool
  | ⟨.startCmd, _⟩ => true
  | _ => false

/-- The controller configuration of the C6 scenario: a keyed controller
with the default calibration `min_handy_depth = 0`, `max_handy_depth =
100` and both span policies disabled. -/
def c6State : HandyState := { handy_key := "key" }

/-! ## Mode loops, cancellation and sessions (`background_modes.py`) -/

/-- Observable events of the mode loops, at millisecond granularity:
device moves, atomic sleeps (a single `time.sleep` call, which cannot
observe cancellation while it runs), polls of the cancellation event,
the device stop and the cleanup callbacks of `AutoModeThread.run`. -/
inductive LEvent
  | moveCmd (sp dp rng : ℤ)
  | sleepMs (ms : ℤ)
  | pollCancel
  | stopDev
  | onStopCb
  | sendMsg
deriving DecidableEq, Repr

/-- Helper for `maxUncheckedSleepMs`: fold the trace keeping the
milliseconds slept since the last cancellation poll and the maximum such
run seen so far. -/
def uncheckedAux (cur best : ℤ) : List LEvent → ℤ
  | [] => max cur best
  | .sleepMs m :: es => uncheckedAux (cur + m) best es
  | .pollCancel :: es => uncheckedAux 0 (max cur best) es
  | _ :: es => uncheckedAux cur best es

/-- The longest stretch of sleeping, in ms, during which a trace never
polls the cancellation event — the worst-case cancellation latency the
trace adds.  The claimed polling-slice bound requires this to be ≤ 100. -/
def maxUncheckedSleepMs (trace : List LEvent) : ℤ := uncheckedAux 0 0 trace

/-- Model of `random.uniform(lo, hi)` at millisecond granularity: the
oracle value is folded into `[lo, hi]` (every value in the range is
realizable). -/
def uniformMs (lo hi t : ℤ) : ℤ := randint lo hi t

/-- One `_step_move(stop_event, handy, sp, dp, rng, dur)` call: the move,
then the interruptible wait `while not stop_event.is_set() and time.time()
< t_end: time.sleep(0.05)` — `n` poll/sleep slices of 50 ms each. -/
def stepMoveTrace (sp dp rng : ℤ) (n : ℕ) : List LEvent :=
  .moveCmd sp dp rng :: (List.replicate n [LEvent.pollCancel, .sleepMs 50]).flatten

/-- One iteration of `post_orgasm_mode_logic`'s loop: the low-speed
maximum-depth move, then fifty slices of `if stop_event.is_set(): break;
time.sleep(0.1)`. -/
def postOrgasmIterTrace (spT : ℤ) : List LEvent :=
  .moveCmd (max 1 (min 5 (randint 1 5 spT))) 100 100 ::
    (List.replicate 50 [LEvent.pollCancel, .sleepMs 100]).flatten

/-- One pass of `loop_moves_randomly(moves, handy, stop_event)`: the
`while` poll, then per move the `if stop_event.is_set()` poll, the move,
and a single uninterruptible `time.sleep(random.uniform(0.5, 1.2))`
(500-1200 ms); after the pass a single `time.sleep(random.uniform(1.5,
3.5))` (1500-3500 ms).  Missing keys default to sp=10, dp=50, rng=30. -/
def replayPassTrace (moves : List SMove) (us : List ℤ) (v : ℤ) : List LEvent :=
  .pollCancel ::
    ((moves.zip us).map (fun p =>
      [LEvent.pollCancel, .moveCmd p.1.sp p.1.dp p.1.rng,
       .sleepMs (uniformMs 500 1200 p.2)])).flatten
    ++ [.sleepMs (uniformMs 1500 3500 v)]

/-- The tail of one `auto_mode_logic` iteration:
`time.sleep(random.uniform(auto_min, auto_max))` executed as one atomic
slice with no cancellation poll inside (bounds in ms). -/
def autoIterEndTrace (autoMinMs autoMaxMs t : ℤ) : List LEvent :=
  [.sleepMs (uniformMs autoMinMs autoMaxMs t)]

/-- The tail of one `milking_mode_logic` iteration, same single-slice
shape as `autoIterEndTrace`. -/
def milkingIterEndTrace (aMs bMs t : ℤ) : List LEvent :=
  [.sleepMs (uniformMs aMs bMs t)]

/-- The tail of one `edging_mode_logic` iteration, same single-slice shape
as `autoIterEndTrace`. -/
def edgingIterEndTrace (aMs bMs t : ℤ) : List LEvent :=
  [.sleepMs (uniformMs aMs bMs t)]

/-- The `finally` block of `AutoModeThread.run` (with all services and
callbacks present): exactly one `handy_controller.stop()`, then the
`on_stop` callback, then the farewell message. -/
def autoThreadCleanupTrace : List LEvent := [.stopDev, .onStopCb, .sendMsg]

/-- Recogniser for the device-stop event, for counting stops in traces. -/
def isStopDev : LEvent → Bool
  | .stopDev => true
  | _ => false

/-! ### Edging state machine (`edging_mode_logic`) -/

/-- The state strings of the edging loop. -/
inductive EState
  | BUILD_UP
  | TEASE
  | HOLD
  | RECOVERY
  | PULL_BACK
deriving DecidableEq, Repr

/-- The `states` list the loop draws its random next state from. -/
def baseStates : List EState := [.BUILD_UP, .TEASE, .HOLD, .RECOVERY]

/-- The shape of an LLM response as consumed by the edging loop: the
optional chat text and the optional (possibly falsy) `move` payload;
`none` for the whole response covers a falsy response object. -/
structure EResp where
  chat : Option String := none
  mv : Option SMove := none
deriving Repr

/-- `response.get("move")` with Python falsiness: `none` when the response
is absent or has no truthy move. -/
def respMove : Option EResp → Option SMove
  | none => none
  | some r => r.mv

/-- `random.choice(states)`: pick one of the four base states by a drawn
index. -/
def pickBase (t : ℤ) : EState := baseStates.getD (randint 0 3 t).toNat .BUILD_UP

/-- Result of one iteration of the edging `while` loop.  `promptState` is
the value of `current_state` when the prompt is chosen (after the signal
branch or the `not in moods` normalization); `state` is `current_state`
at the end of the iteration; `sleptRetry` marks the `time.sleep(1);
continue` path taken when the response has no move. -/
structure ETickOut where
  promptState : EState
  state : EState
  edgeCount : ℤ
  signal : Bool
  applied : Option SMove
  sleptRetry : Bool
deriving Repr

/-- One iteration of `edging_mode_logic`'s loop: if the user signal is set
it is cleared, `edge_count` is incremented and the state is forced to
PULL_BACK; otherwise a state not among the four base states is normalized
to BUILD_UP.  A response without a move sleeps one second and retries
without applying anything.  On success the move is applied and the next
state is RECOVERY after PULL_BACK, else a uniformly random base state. -/
def edgingTick (state : EState) (edgeCount : ℤ) (signal : Bool)
    (response : Option EResp) (choiceT : ℤ) : ETickOut :=
  let ps := if signal then EState.PULL_BACK
            else if baseStates.contains state then state else .BUILD_UP
  let ec := if signal then edgeCount + 1 else edgeCount
  let sg := false
  match respMove response with
  | none => ⟨ps, ps, ec, sg, none, true⟩
  | some mv =>
      let next := if ps ≠ EState.PULL_BACK then pickBase choiceT else .RECOVERY
      ⟨ps, next, ec, sg, some mv, false⟩

/-! ### Replay-session handoff in `auto_mode_logic` (lines 100-110) -/

/-- Python runtime errors relevant to the handoff. -/
inductive PyErr
  | unboundLocal
deriving DecidableEq, Repr

/-- Session-level events of the handoff: setting/clearing the shared stop
event, awaiting a worker's exit (`join`), and starting the replay
thread. -/
inductive SEv
  | sigSet
  | sigClear
  | threadStart
  | joinAwait
deriving DecidableEq, Repr

/-- Reading a Python local variable: unbound (never assigned on any path
executed so far) raises `UnboundLocalError`. -/
def readLocal {α : Type} : Option α → Except PyErr α
  | none => .error .unboundLocal
  | some x => .ok x

/-- A handle to the replay thread, as far as the handoff observes it. -/
structure ThreadRef where
  alive : Bool
deriving DecidableEq, Repr

/-- The `moves`-list handoff block of `auto_mode_logic` (lines 104-110),
parameterized by the contents of the local variable `loop_thread`
(`none` = unbound): evaluate `loop_thread and loop_thread.is_alive()`
(set the shared stop event if alive), then `stop_event.clear()`, then
start the new replay thread.  No `join` of the previous thread occurs
anywhere in the block. -/
def autoMovesBlock (loopThreadVar : Option (Option ThreadRef)) (_mvs : List SMove) :
    Except PyErr (List SEv) := do
  let lt ← readLocal loopThreadVar
  let evs := match lt with
    | some t => if t.alive then [SEv.sigSet] else []
    | none => []
  pure (evs ++ [SEv.sigClear, SEv.threadStart])

/-- The handoff as `auto_mode_logic` actually executes it: `loop_thread`
is assigned at line 108 without a `global` declaration, so it is a local
of the whole function body and is unbound at its first read in line 105
(the module-level `loop_thread = None` is shadowed). -/
def auto_handle_moves (mvs : List SMove) : Except PyErr (List SEv) :=
  autoMovesBlock none mvs

/-- The same block with the read succeeding (the behaviour the module-level
`loop_thread = None` handle suggests was intended, i.e. with a `global`
declaration added), used to examine the protocol the block would follow. -/
def autoMovesBlockIntended (lt : Option ThreadRef) (_mvs : List SMove) : List SEv :=
  (match lt with
    | some t => if t.alive then [SEv.sigSet] else []
    | none => []) ++ [SEv.sigClear, SEv.threadStart]

/-! ## Theorems: move-sequence generator -/

theorem ENVELOPES_wf (s : String) : EnvWF (ENVELOPES s) := by
  unfold ENVELOPES EnvWF
  split_ifs <;> decide

theorem ENVELOPES_recovery : ENVELOPES "RECOVERY" = ⟨5, 15, 35, 55, 20, 40, 3500, 4500⟩ := by
  decide

/-- The override flags produced by the zone and coming blocks are both
`dpOverridden c`, whatever was drawn. -/
theorem pick_ov_eq (c : Cues) (dp rng : ℤ) (d : Draws) :
    (comingPick c (zonePick c dp rng d) d).dpOv = dpOverridden c ∧
    (comingPick c (zonePick c dp rng d) d).rngOv = dpOverridden c := by
  obtain ⟨cf, cs, ct, cb, cfu, cco⟩ := c
  cases ct <;> cases cb <;> cases cfu <;> cases cco <;>
    simp [zonePick, comingPick, dpOverridden]

theorem smoothClampSp_mem (env : Envelope) (phaseU : String)
    (lastM batchLast : Option SMove) (hold : Bool) (jitterT sp : ℤ)
    (hwf : env.spMin ≤ env.spMax) (hrec : phaseU = "RECOVERY" → env.spMax ≤ 15) :
    env.spMin ≤ smoothClampSp env phaseU lastM batchLast hold jitterT sp ∧
    smoothClampSp env phaseU lastM batchLast hold jitterT sp ≤ env.spMax := by
  have hj := randint_mem (-5) 5 jitterT (by omega)
  by_cases hr : phaseU = "RECOVERY"
  · have h15 := hrec hr
    rcases lastM with _ | prev <;> rcases batchLast with _ | prevB <;> cases hold <;>
      simp [smoothClampSp, clampZ, hr] <;> omega
  · rcases lastM with _ | prev <;> rcases batchLast with _ | prevB <;> cases hold <;>
      simp [smoothClampSp, clampZ, hr] <;> omega

theorem smoothClampSp_dist (env : Envelope) (phaseU : String) (prev : SMove)
    (hold : Bool) (jitterT sp : ℤ)
    (hwf1 : 1 ≤ env.spMin) (hwf2 : env.spMin ≤ env.spMax) (hwf3 : env.spMax ≤ 100)
    (hrec : phaseU = "RECOVERY" → env.spMax ≤ 15)
    (hp1 : env.spMin ≤ prev.sp) (hp2 : prev.sp ≤ env.spMax) :
    -6 ≤ smoothClampSp env phaseU (some prev) (some prev) hold jitterT sp - prev.sp ∧
    smoothClampSp env phaseU (some prev) (some prev) hold jitterT sp - prev.sp ≤ 6 := by
  have hj := randint_mem (-5) 5 jitterT (by omega)
  by_cases hr : phaseU = "RECOVERY"
  · have h15 := hrec hr
    cases hold <;> simp [smoothClampSp, clampZ, hr] <;> omega
  · cases hold <;> simp [smoothClampSp, clampZ, hr] <;> omega

theorem smoothClampDp_mem (env : Envelope) (ov : Bool) (lastM : Option SMove) (dp : ℤ)
    (hwf : env.dpMin ≤ env.dpMax) :
    (ov = true → 0 ≤ smoothClampDp env ov lastM dp ∧ smoothClampDp env ov lastM dp ≤ 100) ∧
    (ov = false → env.dpMin ≤ smoothClampDp env ov lastM dp ∧
       smoothClampDp env ov lastM dp ≤ env.dpMax) := by
  cases ov <;> rcases lastM with _ | prev <;>
    simp [smoothClampDp, clampZ] <;> omega

theorem smoothClampDp_dist (env : Envelope) (ov : Bool) (prev : SMove) (dp : ℤ)
    (hwf1 : 0 ≤ env.dpMin) (hwf2 : env.dpMin ≤ env.dpMax) (hwf3 : env.dpMax ≤ 100)
    (hp : (ov = true → 0 ≤ prev.dp ∧ prev.dp ≤ 100) ∧
          (ov = false → env.dpMin ≤ prev.dp ∧ prev.dp ≤ env.dpMax)) :
    -10 ≤ smoothClampDp env ov (some prev) dp - prev.dp ∧
    smoothClampDp env ov (some prev) dp - prev.dp ≤ 10 := by
  obtain ⟨hpt, hpf⟩ := hp
  cases ov with
  | true =>
      have := hpt rfl
      simp [smoothClampDp, clampZ]
      omega
  | false =>
      have := hpf rfl
      simp [smoothClampDp, clampZ]
      omega

theorem smoothClampRng_mem (env : Envelope) (ov : Bool) (lastM : Option SMove) (rng : ℤ)
    (hwf : env.rngMin ≤ env.rngMax) :
    (ov = true → 0 ≤ smoothClampRng env ov lastM rng ∧ smoothClampRng env ov lastM rng ≤ 100) ∧
    (ov = false → env.rngMin ≤ smoothClampRng env ov lastM rng ∧
       smoothClampRng env ov lastM rng ≤ env.rngMax) := by
  cases ov <;> rcases lastM with _ | prev <;>
    simp [smoothClampRng, clampZ] <;> omega

theorem smoothClampRng_dist (env : Envelope) (ov : Bool) (prev : SMove) (rng : ℤ)
    (hwf1 : 0 ≤ env.rngMin) (hwf2 : env.rngMin ≤ env.rngMax) (hwf3 : env.rngMax ≤ 100)
    (hp : (ov = true → 0 ≤ prev.rng ∧ prev.rng ≤ 100) ∧
          (ov = false → env.rngMin ≤ prev.rng ∧ prev.rng ≤ env.rngMax)) :
    -10 ≤ smoothClampRng env ov (some prev) rng - prev.rng ∧
    smoothClampRng env ov (some prev) rng - prev.rng ≤ 10 := by
  obtain ⟨hpt, hpf⟩ := hp
  cases ov with
  | true =>
      have := hpt rfl
      simp [smoothClampRng, clampZ]
      omega
  | false =>
      have := hpf rfl
      simp [smoothClampRng, clampZ]
      omega

theorem durationPick_mem (c : Cues) (env : Envelope) (d : Draws)
    (hwf : env.durMin ≤ env.durMax) :
    (c.coming = true → 3500 ≤ durationPick c env d ∧ durationPick c env d ≤ 7000) ∧
    (c.coming = false → env.durMin ≤ durationPick c env d ∧ durationPick c env d ≤ env.durMax) := by
  have h1 := randint_mem 3500 7000 d.comingDurT (by omega)
  have h2 := randint_mem env.durMin env.durMax d.durT hwf
  cases hc : c.coming <;> simp [durationPick, hc] <;> omega

/-- Every move produced by one loop iteration satisfies the `MoveOK`
bounds, whatever `_LAST_MOVE` and the batch tail contain. -/
theorem genStep_MoveOK (c : Cues) (phaseU : String) (env : Envelope)
    (lastM batchLast : Option SMove) (d : Draws) (hwf : EnvWF env)
    (hrec : phaseU = "RECOVERY" → env.spMax ≤ 15) :
    MoveOK c env (genStep c phaseU env lastM batchLast d) := by
  obtain ⟨w1, w2, w3, w4, w5, w6, w7, w8, w9, w10⟩ := hwf
  have hov := pick_ov_eq c (randint env.dpMin env.dpMax d.dpT)
    (randint env.rngMin env.rngMax d.rngT) d
  simp only [genStep, MoveOK]
  rw [hov.1, hov.2]
  refine ⟨smoothClampSp_mem _ _ _ _ _ _ _ w2 hrec, ?_, ?_, (durationPick_mem c env d w10).1,
    (durationPick_mem c env d w10).2⟩
  · intro h
    exact ⟨((smoothClampDp_mem env _ lastM _ w5).1 h).1,
           ((smoothClampDp_mem env _ lastM _ w5).1 h).2,
           ((smoothClampRng_mem env _ lastM _ w8).1 h).1,
           ((smoothClampRng_mem env _ lastM _ w8).1 h).2⟩
  · intro h
    exact ⟨((smoothClampDp_mem env _ lastM _ w5).2 h).1,
           ((smoothClampDp_mem env _ lastM _ w5).2 h).2,
           ((smoothClampRng_mem env _ lastM _ w8).2 h).1,
           ((smoothClampRng_mem env _ lastM _ w8).2 h).2⟩

/-- A move produced with `_LAST_MOVE = prev` (also the batch tail, as is
the case from the second iteration on) stays within the smoothing deltas
of `prev`, provided `prev` itself satisfies the `MoveOK` bounds. -/
theorem genStep_dist (c : Cues) (phaseU : String) (env : Envelope)
    (prev : SMove) (d : Draws) (hwf : EnvWF env)
    (hrec : phaseU = "RECOVERY" → env.spMax ≤ 15)
    (hprev : MoveOK c env prev) :
    SmoothStep prev (genStep c phaseU env (some prev) (some prev) d) := by
  obtain ⟨w1, w2, w3, w4, w5, w6, w7, w8, w9, w10⟩ := hwf
  obtain ⟨hsp, hov1, hov0, _, _⟩ := hprev
  have hov := pick_ov_eq c (randint env.dpMin env.dpMax d.dpT)
    (randint env.rngMin env.rngMax d.rngT) d
  simp only [genStep, SmoothStep]
  rw [hov.1, hov.2]
  refine ⟨abs_le.mpr ?_, abs_le.mpr ?_, abs_le.mpr ?_⟩
  · exact smoothClampSp_dist env phaseU prev _ _ _ w1 w2 w3 hrec hsp.1 hsp.2
  · exact smoothClampDp_dist env _ prev _ w4 w5 w6
      ⟨fun h => ⟨(hov1 h).1, (hov1 h).2.1⟩, fun h => ⟨(hov0 h).1, (hov0 h).2.1⟩⟩
  · exact smoothClampRng_dist env _ prev _ w7 w8 w9
      ⟨fun h => ⟨(hov1 h).2.2.1, (hov1 h).2.2.2⟩, fun h => ⟨(hov0 h).2.2.1, (hov0 h).2.2.2⟩⟩

/-- Loop invariant of `genLoop`: if the accumulated batch satisfies the
smoothing chain and its last element (when present) is `_LAST_MOVE` and
satisfies `MoveOK`, then the completed batch satisfies the chain and every
appended move satisfies `MoveOK`. -/
theorem genLoop_inv (c : Cues) (phaseU : String) (env : Envelope)
    (hwf : EnvWF env) (hrec : phaseU = "RECOVERY" → env.spMax ≤ 15) :
    ∀ (ds : List Draws) (lastM : Option SMove) (acc : List SMove),
      List.Chain' SmoothStep acc →
      (∀ m, acc.getLast? = some m → lastM = some m ∧ MoveOK c env m) →
      List.Chain' SmoothStep (genLoop c phaseU env lastM acc ds) ∧
      ∀ m, m ∈ genLoop c phaseU env lastM acc ds → m ∈ acc ∨ MoveOK c env m := by
  intro ds
  induction ds with
  | nil =>
      intro lastM acc hch _
      exact ⟨hch, fun m hm => Or.inl hm⟩
  | cons d ds ih =>
      intro lastM acc hch hlast
      simp only [genLoop]
      have hmOK : MoveOK c env (genStep c phaseU env lastM acc.getLast? d) :=
        genStep_MoveOK c phaseU env lastM acc.getLast? d hwf hrec
      have hch2 : List.Chain' SmoothStep
          (acc ++ [genStep c phaseU env lastM acc.getLast? d]) := by
        rw [List.chain'_append]
        refine ⟨hch, List.chain'_singleton _, ?_⟩
        intro x hx y hy
        simp only [List.head?_cons, Option.mem_def, Option.some.injEq] at hy
        subst hy
        have hxl : acc.getLast? = some x := Option.mem_def.mp hx
        have h1 := hlast x hxl
        rw [h1.1, hxl]
        exact genStep_dist c phaseU env x d hwf hrec h1.2
      have hinv : ∀ m,
          (acc ++ [genStep c phaseU env lastM acc.getLast? d]).getLast? = some m →
          some (genStep c phaseU env lastM acc.getLast? d) = some m ∧ MoveOK c env m := by
        intro m hm
        rw [List.getLast?_concat] at hm
        cases hm
        exact ⟨rfl, hmOK⟩
      obtain ⟨hc2, hmem⟩ := ih (some (genStep c phaseU env lastM acc.getLast? d))
        (acc ++ [genStep c phaseU env lastM acc.getLast? d]) hch2 hinv
      refine ⟨hc2, ?_⟩
      intro m hm
      rcases hmem m hm with h | h
      · rcases List.mem_append.mp h with h2 | h2
        · exact Or.inl h2
        · simp only [List.mem_singleton] at h2
          subst h2
          exact Or.inr hmOK
      · exact Or.inr h

theorem recovery_spMax : (ENVELOPES "RECOVERY").spMax = 15 := by
  rw [ENVELOPES_recovery]

/-- C2 (amended): every move of a `generate` batch has its speed inside
the phase envelope, its duration inside the envelope (inside [3500,7000]
under the `coming` cue), its depth and range inside the envelope when no
cue override applies and inside [0,100] when one does, and in the
RECOVERY phase its speed is at most 15.  (As frozen, the claim further
requires overridden depth/range to lie in the announced override draw
ranges, which `C2_counterexample` refutes.) -/
theorem C2_envelope_bounds (phase : String) (c : Cues) (st : GenState) (d : ℕ → Draws) :
    ∀ m ∈ (generate phase c st d).1,
      MoveOK c (ENVELOPES (pyUpper phase)) m ∧ (pyUpper phase = "RECOVERY" → m.sp ≤ 15) := by
  intro m hm
  have hwf := ENVELOPES_wf (pyUpper phase)
  have hrec : pyUpper phase = "RECOVERY" → (ENVELOPES (pyUpper phase)).spMax ≤ 15 := by
    intro h
    rw [h, recovery_spMax]
  have hmem := (genLoop_inv c (pyUpper phase) (ENVELOPES (pyUpper phase)) hwf hrec
    ((List.range num_moves).map d)
    (if st.lastPhase ≠ some (pyUpper phase) then none else st.lastMove) []
    List.chain'_nil (by simp)).2 m
    (by simpa [generate, generate_moves] using hm)
  rcases hmem with h | h
  · simp at h
  · refine ⟨h, fun hrecov => ?_⟩
    have hsp := h.1.2
    rw [hrecov, recovery_spMax] at hsp
    exact hsp

set_option maxRecDepth 100000 in
/-- Witness for `C2_envelope_bounds` at a concrete input: the first move
of a fresh WARM-UP batch with all-zero draws. -/
theorem C2_envelope_bounds_witness :
    (⟨26, 42, 42, 3006⟩ : SMove) ∈ (generate "WARM-UP" {} ⟨none, none⟩ (fun _ => {})).1 ∧
    (MoveOK {} (ENVELOPES (pyUpper "WARM-UP")) ⟨26, 42, 42, 3006⟩ ∧
      (pyUpper "WARM-UP" = "RECOVERY" → (26 : ℤ) ≤ 15)) :=
  ⟨by decide,
   C2_envelope_bounds "WARM-UP" {} ⟨none, none⟩ (fun _ => {}) ⟨26, 42, 42, 3006⟩ (by decide)⟩

set_option maxRecDepth 100000 in
/-- C2 is false as frozen: starting from a fresh state, a WARM-UP call
with no cues can leave `_LAST_MOVE` at depth 60; a following WARM-UP call
with the tip-only cue then produces a first move whose depth is 70 —
outside both the WARM-UP depth envelope [40, 60] and the announced
tip-only override range [85, 95] — because smoothing pulls the overridden
draw toward the previous move and the final clamp is only to [0, 100]. -/
theorem C2_counterexample :
    ((generate "WARM-UP" { tip_only := true }
        (generate "WARM-UP" {} ⟨none, none⟩ (fun _ => { dpT := 60 })).2
        (fun _ => { zoneDpT := 85 })).1.head?.map SMove.dp) = some 70 ∧
    ((60 : ℤ) < 70 ∧ (70 : ℤ) < 85) := by
  constructor
  · decide
  · decide

/-- C3: within one `generate` call, consecutive moves differ by at most 6
in speed and 10 in depth and range (the hypothesis restricts to calls
whose requested phase matches the stored `_LAST_PHASE`, as the claim
states; the first move of a batch after a phase change carries no bound
against the previous call, which the conclusion does not constrain). -/
theorem C3_smoothing_deltas (phase : String) (c : Cues) (st : GenState) (d : ℕ → Draws)
    (_hphase : st.lastPhase = some (pyUpper phase)) :
    List.Chain' SmoothStep (generate phase c st d).1 := by
  have hwf := ENVELOPES_wf (pyUpper phase)
  have hrec : pyUpper phase = "RECOVERY" → (ENVELOPES (pyUpper phase)).spMax ≤ 15 := by
    intro h
    rw [h, recovery_spMax]
  have hres := (genLoop_inv c (pyUpper phase) (ENVELOPES (pyUpper phase)) hwf hrec
    ((List.range num_moves).map d)
    (if st.lastPhase ≠ some (pyUpper phase) then none else st.lastMove) []
    List.chain'_nil (by simp)).1
  simpa [generate, generate_moves] using hres

set_option maxRecDepth 100000 in
/-- Witness for `C3_smoothing_deltas` at a concrete input: a WARM-UP call
whose state records WARM-UP as the previous phase. -/
theorem C3_smoothing_deltas_witness :
    (GenState.lastPhase ⟨some ⟨20, 50, 30, 3000⟩, some "WARM-UP"⟩ =
      some (pyUpper "WARM-UP")) ∧
    List.Chain' SmoothStep
      (generate "WARM-UP" {} ⟨some ⟨20, 50, 30, 3000⟩, some "WARM-UP"⟩ (fun _ => {})).1 :=
  ⟨by decide,
   C3_smoothing_deltas "WARM-UP" {} ⟨some ⟨20, 50, 30, 3000⟩, some "WARM-UP"⟩ (fun _ => {})
     (by decide)⟩

/-! ## Theorems: device command mapper -/

theorem pyTrunc_intCast (n : ℤ) : pyTrunc (n : ℚ) = n := by
  unfold pyTrunc
  split_ifs with h
  · exact Int.floor_intCast n
  · rw [show (-(n : ℚ)) = ((-n : ℤ) : ℚ) by push_cast; ring, Int.floor_intCast]
    ring

theorem pyRound_intCast (n : ℤ) : pyRound (n : ℚ) = n := by
  unfold pyRound
  rw [Int.floor_intCast]
  norm_num

/-- An input that rounds to 0 lies in [−1/2, 1/2]. -/
theorem pyRound_zero_bounds (q : ℚ) (h : pyRound q = 0) : -(1/2) ≤ q ∧ q ≤ 1/2 := by
  have hfl := Int.floor_le q
  have hlt := Int.lt_floor_add_one q
  unfold pyRound at h
  split_ifs at h with h1 h2 h3
  · rw [h] at hfl hlt h1
    push_cast at hfl hlt h1
    constructor <;> linarith
  · have hq : ⌊q⌋ = -1 := by omega
    rw [hq] at hfl hlt h2
    push_cast at hfl hlt h2
    constructor <;> linarith
  · rw [h] at h1 h2
    push_cast at h1 h2
    constructor <;> linarith
  · have hq : ⌊q⌋ = -1 := by omega
    rw [hq] at h1 h2
    push_cast at h1 h2
    constructor <;> linarith

theorem pyTrunc_zero_of (q : ℚ) (hminus : -1 < q) (hplus : q < 1) : pyTrunc q = 0 := by
  unfold pyTrunc
  split_ifs with h
  · rw [Int.floor_eq_zero_iff]
    exact ⟨h, hplus⟩
  · have hz : ⌊-q⌋ = 0 := by
      rw [Int.floor_eq_zero_iff]
      push_neg at h
      constructor
      · simp
        linarith
      · linarith
    rw [hz]
    ring

/-- Python truncation agrees with rounding at 0: an input that rounds to 0
also truncates to 0, so `move`'s `int(float(speed)) == 0` test fires. -/
theorem pyRound_zero_trunc (q : ℚ) (h : pyRound q = 0) : pyTrunc q = 0 := by
  obtain ⟨h1, h2⟩ := pyRound_zero_bounds q h
  exact pyTrunc_zero_of q (by linarith) (by linarith)

/-- C4: a `move(speed, depth, range)` call whose speed rounds to 0 is the
same computation as `stop()` — same resulting mapper state (for any depth
and range and any transport outcome) and same emissions: at most the
device stop command, never a slide or velocity command. -/
theorem C4_zero_speed_move_is_stop (tr : HCmd → Bool) (st : HandyState)
    (speed depth stroke_range : ℚ) (h : pyRound speed = 0) :
    move tr st speed depth stroke_range = stop tr st ∧
    ∀ e ∈ (move tr st speed depth stroke_range).2, e.cmd = HCmd.stopCmd := by
  have ht : pyTrunc speed = 0 := pyRound_zero_trunc speed h
  have heq : move tr st speed depth stroke_range = stop tr st := by
    by_cases hk : st.handy_key = ""
    · simp [move, stop, hk]
    · simp [move, hk, ht]
  refine ⟨heq, ?_⟩
  rw [heq]
  by_cases hk : st.handy_key = ""
  · simp [stop, hk]
  · simp [stop, send_command, hk]

/-- Witness for `C4_zero_speed_move_is_stop` at speed 0 on a keyed
controller. -/
theorem C4_zero_speed_move_is_stop_witness :
    pyRound (0 : ℚ) = 0 ∧
    (move (fun _ => true) { handy_key := "k" } 0 30 40 = stop (fun _ => true) { handy_key := "k" } ∧
     ∀ e ∈ (move (fun _ => true) ({ handy_key := "k" } : HandyState) 0 30 40).2,
       e.cmd = HCmd.stopCmd) :=
  ⟨by rw [show (0 : ℚ) = ((0 : ℤ) : ℚ) by norm_num, pyRound_intCast],
   C4_zero_speed_move_is_stop (fun _ => true) { handy_key := "k" } 0 30 40
     (by rw [show (0 : ℚ) = ((0 : ℤ) : ℚ) by norm_num, pyRound_intCast])⟩

/-- C10: with an empty API key both `move()` and `stop()` return
immediately: no command is attempted and the state — in particular
`last_relative_speed`, `last_stroke_speed` and `_manual_mode_active` — is
unchanged. -/
theorem C10_empty_key_frame (tr : HCmd → Bool) (st : HandyState)
    (hk : st.handy_key = "") (speed depth stroke_range : ℚ) :
    move tr st speed depth stroke_range = (st, []) ∧ stop tr st = (st, []) := by
  constructor
  · simp [move, hk]
  · simp [stop, hk]

/-- Witness for `C10_empty_key_frame` on the default (key-less) state. -/
theorem C10_empty_key_frame_witness :
    (HandyState.handy_key {} = "") ∧
    (move (fun _ => true) {} 50 50 50 = ({}, []) ∧ stop (fun _ => true) {} = ({}, [])) :=
  ⟨rfl, C10_empty_key_frame (fun _ => true) {} rfl 50 50 50⟩

/-- C8: transport failures never propagate out of `move` (the embedding of
`_send_command` catches them and returns normally, so `move` is a total
function of the transport oracle), the failed attempts are recorded and
skipped, and the mapper state is updated to the post-clamp intended
values — identical to the state produced under an all-succeeding
transport. -/
theorem finalVel_set_manual (st : HandyState) (b : Bool) (q : ℚ) :
    finalVel { st with manual_mode_active := b } q = finalVel st q := rfl

theorem correctedSlide_set_manual (st : HandyState) (b : Bool) (dp rng : ℚ) :
    correctedSlide { st with manual_mode_active := b } dp rng = correctedSlide st dp rng := rfl

theorem C8_transport_failure_tolerated (tr : HCmd → Bool) (st : HandyState)
    (hk : st.handy_key ≠ "") (speed depth stroke_range : ℚ) (h : pyTrunc speed ≠ 0) :
    (move tr st speed depth stroke_range).1.last_relative_speed = pyRound (pct speed) ∧
    (move tr st speed depth stroke_range).1.last_depth_pos = pyRound (pct depth) ∧
    (move tr st speed depth stroke_range).1.last_stroke_speed = finalVel st (pct speed) ∧
    (move tr st speed depth stroke_range).1 = (move (fun _ => true) st speed depth stroke_range).1 ∧
    ((move tr st speed depth stroke_range).2).map HEvent.cmd =
      ((move (fun _ => true) st speed depth stroke_range).2).map HEvent.cmd := by
  by_cases hm : st.manual_mode_active <;>
    simp [move, ensure_manual_mode, apply_move_parameters, send_command, hk, h, hm,
      finalVel_set_manual, correctedSlide_set_manual]

/-- Witness for `C8_transport_failure_tolerated` under an all-failing
transport. -/
theorem C8_transport_failure_tolerated_witness :
    (HandyState.handy_key { handy_key := "k" } ≠ "") ∧ pyTrunc (50 : ℚ) ≠ 0 ∧
    ((move (fun _ => false) { handy_key := "k" } 50 60 70).1.last_relative_speed =
        pyRound (pct 50) ∧
     (move (fun _ => false) { handy_key := "k" } 50 60 70).1.last_depth_pos =
        pyRound (pct 60) ∧
     (move (fun _ => false) { handy_key := "k" } 50 60 70).1.last_stroke_speed =
        finalVel { handy_key := "k" } (pct 50) ∧
     (move (fun _ => false) ({ handy_key := "k" } : HandyState) 50 60 70).1 =
        (move (fun _ => true) { handy_key := "k" } 50 60 70).1 ∧
     ((move (fun _ => false) ({ handy_key := "k" } : HandyState) 50 60 70).2).map HEvent.cmd =
        ((move (fun _ => true) ({ handy_key := "k" } : HandyState) 50 60 70).2).map HEvent.cmd) :=
  ⟨by simp, by rw [show (50 : ℚ) = ((50 : ℤ) : ℚ) by norm_num, pyTrunc_intCast]; omega,
   C8_transport_failure_tolerated (fun _ => false) { handy_key := "k" } (by simp) 50 60 70
     (by rw [show (50 : ℚ) = ((50 : ℤ) : ℚ) by norm_num, pyTrunc_intCast]; omega)⟩

/-- C5: on a keyed controller with manual mode inactive, the first
non-stop `move()` emits the "set manual mode"/"start" pair exactly once
and flips `_manual_mode_active` to true; a second `move()` without an
intervening `stop()` emits no further pair and keeps the flag; `stop()`
resets the flag; and the next `move()` emits the pair exactly once
again. -/
theorem C5_manual_mode_singleton (tr : HCmd → Bool) (st : HandyState)
    (hk : st.handy_key ≠ "") (hm : st.manual_mode_active = false)
    (s1 d1 r1 s2 d2 r2 : ℚ) (h1 : pyTrunc s1 ≠ 0) (h2 : pyTrunc s2 ≠ 0) :
    ((move tr st s1 d1 r1).2.countP isModeCmd = 1 ∧
     (move tr st s1 d1 r1).2.countP isStartCmd = 1) ∧
    (move tr st s1 d1 r1).1.manual_mode_active = true ∧
    ((move tr (move tr st s1 d1 r1).1 s2 d2 r2).2.countP isModeCmd = 0 ∧
     (move tr (move tr st s1 d1 r1).1 s2 d2 r2).2.countP isStartCmd = 0) ∧
    (move tr (move tr st s1 d1 r1).1 s2 d2 r2).1.manual_mode_active = true ∧
    (stop tr (move tr (move tr st s1 d1 r1).1 s2 d2 r2).1).1.manual_mode_active = false ∧
    ((move tr (stop tr (move tr (move tr st s1 d1 r1).1 s2 d2 r2).1).1 s1 d1 r1).2.countP
        isModeCmd = 1 ∧
     (move tr (stop tr (move tr (move tr st s1 d1 r1).1 s2 d2 r2).1).1 s1 d1 r1).2.countP
        isStartCmd = 1) := by
  simp [move, stop, ensure_manual_mode, apply_move_parameters, send_command, hk, hm, h1, h2,
    isModeCmd, isStartCmd, List.countP_cons, List.countP_append]

/-- Witness for `C5_manual_mode_singleton` on a fresh keyed controller
with two plain moves. -/
theorem C5_manual_mode_singleton_witness :
    (HandyState.handy_key { handy_key := "k" } ≠ "") ∧
    (HandyState.manual_mode_active { handy_key := "k" } = false) ∧
    pyTrunc (50 : ℚ) ≠ 0 ∧ pyTrunc (60 : ℚ) ≠ 0 ∧
    (((move (fun _ => true) { handy_key := "k" } 50 50 50).2.countP isModeCmd = 1 ∧
      (move (fun _ => true) { handy_key := "k" } 50 50 50).2.countP isStartCmd = 1) ∧
     (move (fun _ => true) ({ handy_key := "k" } : HandyState) 50 50 50).1.manual_mode_active
        = true ∧
     ((move (fun _ => true) (move (fun _ => true) { handy_key := "k" } 50 50 50).1
          60 60 60).2.countP isModeCmd = 0 ∧
      (move (fun _ => true) (move (fun _ => true) { handy_key := "k" } 50 50 50).1
          60 60 60).2.countP isStartCmd = 0) ∧
     (move (fun _ => true) (move (fun _ => true) ({ handy_key := "k" } : HandyState)
          50 50 50).1 60 60 60).1.manual_mode_active = true ∧
     (stop (fun _ => true) (move (fun _ => true) (move (fun _ => true)
          ({ handy_key := "k" } : HandyState) 50 50 50).1 60 60 60).1).1.manual_mode_active
        = false ∧
     ((move (fun _ => true) (stop (fun _ => true) (move (fun _ => true) (move (fun _ => true)
          ({ handy_key := "k" } : HandyState) 50 50 50).1 60 60 60).1).1 50 50 50).2.countP
        isModeCmd = 1 ∧
      (move (fun _ => true) (stop (fun _ => true) (move (fun _ => true) (move (fun _ => true)
          ({ handy_key := "k" } : HandyState) 50 50 50).1 60 60 60).1).1 50 50 50).2.countP
        isStartCmd = 1)) :=
  ⟨by simp, rfl,
   by rw [show (50 : ℚ) = ((50 : ℤ) : ℚ) by norm_num, pyTrunc_intCast]; omega,
   by rw [show (60 : ℚ) = ((60 : ℤ) : ℚ) by norm_num, pyTrunc_intCast]; omega,
   C5_manual_mode_singleton (fun _ => true) { handy_key := "k" } (by simp) rfl 50 50 50 60 60 60
     (by rw [show (50 : ℚ) = ((50 : ℤ) : ℚ) by norm_num, pyTrunc_intCast]; omega)
     (by rw [show (60 : ℚ) = ((60 : ℤ) : ℚ) by norm_num, pyTrunc_intCast]; omega)⟩

theorem c6_calib : calibWidth c6State = ((100 : ℤ) : ℚ) := by
  norm_num [calibWidth, c6State]

theorem c6_span : spanAbs c6State (pct 50) = 50 := by
  have h1 : ((pct 50) / 100) * calibWidth c6State = ((50 : ℤ) : ℚ) := by
    rw [c6_calib]
    norm_num [pct]
  simp only [spanAbs]
  rw [h1, pyRound_intCast, c6_calib, pyTrunc_intCast]
  norm_num [c6State]

theorem c6_center : centerAbs c6State (pct 5) = 5 := by
  rw [centerAbs, c6_calib]
  norm_num [pct, c6State]

theorem c6_raw : rawSlide c6State (pct 5) (pct 50) = (-20, 30) := by
  simp only [rawSlide, c6_span, c6_center]
  have hmin : (5 : ℚ) - ((50 : ℤ) : ℚ) / 2 = ((-20 : ℤ) : ℚ) := by norm_num
  have hmax : (5 : ℚ) + ((50 : ℤ) : ℚ) / 2 = ((30 : ℤ) : ℚ) := by norm_num
  rw [hmin, hmax, pyRound_intCast, pyRound_intCast]

theorem c6_corrected : correctedSlide c6State (pct 5) (pct 50) = (0, 50) := by
  simp only [correctedSlide, c6_raw, c6_span]
  norm_num

/-- C6: with calibration [0, 100] and the span policy disabled,
`move(speed, 5, 50)` computes the raw slide window (−20, 30), corrects it
to (0, 50) — inside [0,100] with the 50-point span preserved — and emits
exactly the manual-mode pair, the corrected slide window and the
velocity. -/
theorem C6_boundary_correction (tr : HCmd → Bool) (speed : ℚ) (h : pyTrunc speed ≠ 0) :
    rawSlide c6State (pct 5) (pct 50) = (-20, 30) ∧
    correctedSlide c6State (pct 5) (pct 50) = (0, 50) ∧
    ((move tr c6State speed 5 50).2).map HEvent.cmd =
      [HCmd.modeCmd 0, HCmd.startCmd, HCmd.slideCmd 0 50,
       HCmd.velocityCmd (finalVel c6State (pct speed))] := by
  have hk : ¬ (c6State.handy_key = "") := by simp [c6State]
  have hm : c6State.manual_mode_active = false := rfl
  refine ⟨c6_raw, c6_corrected, ?_⟩
  simp [move, ensure_manual_mode, apply_move_parameters, send_command, h, hk, hm,
    correctedSlide_set_manual, finalVel_set_manual, c6_corrected]

/-- Witness for `C6_boundary_correction` at speed 40. -/
theorem C6_boundary_correction_witness :
    pyTrunc (40 : ℚ) ≠ 0 ∧
    (rawSlide c6State (pct 5) (pct 50) = (-20, 30) ∧
     correctedSlide c6State (pct 5) (pct 50) = (0, 50) ∧
     ((move (fun _ => true) c6State 40 5 50).2).map HEvent.cmd =
       [HCmd.modeCmd 0, HCmd.startCmd, HCmd.slideCmd 0 50,
        HCmd.velocityCmd (finalVel c6State (pct 40))]) :=
  ⟨by rw [show (40 : ℚ) = ((40 : ℤ) : ℚ) by norm_num, pyTrunc_intCast]; omega,
   C6_boundary_correction (fun _ => true) 40
     (by rw [show (40 : ℚ) = ((40 : ℤ) : ℚ) by norm_num, pyTrunc_intCast]; omega)⟩

/-! ## Theorems: mode loops, cancellation, edging, session handoff -/

/-- A run of `n` poll-then-sleep slices of at most `bound` ms each never
accumulates more than `bound` ms of unpolled sleep. -/
theorem uncheckedAux_slices (ms bound : ℤ) (_hms : 0 ≤ ms) (hbound : ms ≤ bound) :
    ∀ (n : ℕ) (cur best : ℤ), cur ≤ bound → best ≤ bound →
      uncheckedAux cur best
        ((List.replicate n [LEvent.pollCancel, LEvent.sleepMs ms]).flatten) ≤ bound := by
  intro n
  induction n with
  | zero =>
      intro cur best h1 h2
      simp [uncheckedAux]
      omega
  | succ k ih =>
      intro cur best h1 h2
      rw [List.replicate_succ, List.flatten_cons]
      exact ih (0 + ms) (max cur best) (by omega) (by omega)

theorem stepMove_slices (sp dp rng : ℤ) (n : ℕ) :
    maxUncheckedSleepMs (stepMoveTrace sp dp rng n) ≤ 100 := by
  have h : maxUncheckedSleepMs (stepMoveTrace sp dp rng n) =
      uncheckedAux 0 0 ((List.replicate n [LEvent.pollCancel, LEvent.sleepMs 50]).flatten) := rfl
  rw [h]
  exact uncheckedAux_slices 50 100 (by omega) (by omega) n 0 0 (by omega) (by omega)

theorem postOrgasm_slices (spT : ℤ) :
    maxUncheckedSleepMs (postOrgasmIterTrace spT) ≤ 100 := by
  have h : maxUncheckedSleepMs (postOrgasmIterTrace spT) =
      uncheckedAux 0 0 ((List.replicate 50 [LEvent.pollCancel, LEvent.sleepMs 100]).flatten) := rfl
  rw [h]
  exact uncheckedAux_slices 100 100 (by omega) (by omega) 50 0 0 (by omega) (by omega)

theorem replayPass_no_stop (moves : List SMove) (us : List ℤ) (v : ℤ) :
    (replayPassTrace moves us v).countP isStopDev = 0 := by
  have h : ∀ p : SMove × ℤ,
      ([LEvent.pollCancel, LEvent.moveCmd p.1.sp p.1.dp p.1.rng,
        LEvent.sleepMs (uniformMs 500 1200 p.2)]).countP isStopDev = 0 := by
    intro p
    simp [isStopDev, List.countP_cons]
  simp [replayPassTrace, List.countP_cons, List.countP_append, List.countP_flatten,
    List.map_map, Function.comp, h, isStopDev, List.sum_eq_zero_iff]
  intro x a b _ hx
  omega

/-- C1 (amended): the custom pattern loops are cancellable within one
polling slice of at most 100 ms (50 ms slices in `_step_move`, 100 ms in
post-orgasm) and the `AutoModeThread` cleanup issues exactly one device
stop; the replay sub-session instead sleeps 500-1200 ms after each move
and 1500-3500 ms after each pass in single unpolled slices and issues no
device stop of its own; the Auto, Milking and Edging loops likewise sleep
their whole uniformly drawn interval in one atomic slice, so their
cancellation latency is the drawn interval, not 100 ms. -/
theorem C1_cancellation_latency :
    (∀ (sp dp rng : ℤ) (n : ℕ), maxUncheckedSleepMs (stepMoveTrace sp dp rng n) ≤ 100) ∧
    (∀ spT : ℤ, maxUncheckedSleepMs (postOrgasmIterTrace spT) ≤ 100) ∧
    autoThreadCleanupTrace.countP isStopDev = 1 ∧
    (∀ t : ℤ, 500 ≤ uniformMs 500 1200 t ∧ uniformMs 500 1200 t ≤ 1200) ∧
    (∀ (moves : List SMove) (us : List ℤ) (v : ℤ),
       (replayPassTrace moves us v).countP isStopDev = 0) ∧
    (∀ a b t : ℤ, 0 ≤ a → a ≤ b →
       maxUncheckedSleepMs (autoIterEndTrace a b t) = uniformMs a b t ∧
       maxUncheckedSleepMs (milkingIterEndTrace a b t) = uniformMs a b t ∧
       maxUncheckedSleepMs (edgingIterEndTrace a b t) = uniformMs a b t) := by
  refine ⟨stepMove_slices, postOrgasm_slices, by decide,
    fun t => randint_mem 500 1200 t (by omega), replayPass_no_stop, ?_⟩
  intro a b t ha hab
  have hu := randint_mem a b t hab
  refine ⟨?_, ?_, ?_⟩ <;>
    · simp [autoIterEndTrace, milkingIterEndTrace, edgingIterEndTrace,
        maxUncheckedSleepMs, uncheckedAux, uniformMs]
      omega

/-- Witness for `C1_cancellation_latency` at concrete inputs (two-second
timing bounds for the single-slice loops). -/
theorem C1_cancellation_latency_witness :
    maxUncheckedSleepMs (stepMoveTrace 35 20 50 16) ≤ 100 ∧
    maxUncheckedSleepMs (postOrgasmIterTrace 3) ≤ 100 ∧
    (0 : ℤ) ≤ 2000 ∧ (2000 : ℤ) ≤ 5000 ∧
    maxUncheckedSleepMs (autoIterEndTrace 2000 5000 2000 : List LEvent) =
      uniformMs 2000 5000 2000 :=
  ⟨C1_cancellation_latency.1 35 20 50 16,
   C1_cancellation_latency.2.1 3,
   by omega, by omega,
   (C1_cancellation_latency.2.2.2.2.2 2000 5000 2000 (by omega) (by omega)).1⟩

/-- C1 is false as frozen: one pass of the replay sub-session
(`loop_moves_randomly`) over a single move sleeps 500 ms after the move
and 1500 ms after the pass, with no cancellation poll in between, so its
longest unpolled sleep is 2000 ms — far above the claimed 100 ms polling
slice — and the pass contains no device stop. -/
theorem C1_counterexample :
    maxUncheckedSleepMs (replayPassTrace [⟨30, 50, 40, 0⟩] [500] 1500) = 2000 ∧
    ¬ (maxUncheckedSleepMs (replayPassTrace [⟨30, 50, 40, 0⟩] [500] 1500) ≤ 100) := by
  constructor <;> decide

/-- C7 (amended): a tick that begins with the user edge signal set clears
it, increments the edge count by exactly one and operates in PULL_BACK
regardless of the prior state; a PULL_BACK tick whose response carries a
move is followed by RECOVERY; but a tick whose response carries no move
keeps its operating state unchanged, and a PULL_BACK state reached that
way is normalized to BUILD_UP (not RECOVERY) by the next signal-free
tick. -/
theorem C7_edging_machine :
    (∀ (s : EState) (ec : ℤ) (resp : Option EResp) (t : ℤ),
       (edgingTick s ec true resp t).signal = false ∧
       (edgingTick s ec true resp t).edgeCount = ec + 1 ∧
       (edgingTick s ec true resp t).promptState = .PULL_BACK) ∧
    (∀ (s : EState) (ec : ℤ) (sg : Bool) (resp : Option EResp) (t : ℤ),
       (edgingTick s ec sg resp t).promptState = .PULL_BACK →
       respMove resp ≠ none →
       (edgingTick s ec sg resp t).state = .RECOVERY) ∧
    (∀ (s : EState) (ec : ℤ) (sg : Bool) (t : ℤ),
       (edgingTick s ec sg none t).state = (edgingTick s ec sg none t).promptState) ∧
    (∀ (ec : ℤ) (resp : Option EResp) (t : ℤ),
       (edgingTick .PULL_BACK ec false resp t).promptState = .BUILD_UP) := by
  refine ⟨?_, ?_, ?_, ?_⟩
  · intro s ec resp t
    rcases hr : respMove resp with _ | mv <;> simp [edgingTick, hr]
  · intro s ec sg resp t hps hm
    rcases hr : respMove resp with _ | mv
    · exact absurd hr hm
    · simp only [edgingTick, hr] at hps ⊢
      rw [hps]
      simp
  · intro s ec sg t
    simp [edgingTick, respMove]
  · intro ec resp t
    rcases hr : respMove resp with _ | mv <;> simp [edgingTick, hr, baseStates]

/-- Witness for `C7_edging_machine`: an edge-signalled tick whose
response carries a move operates in PULL_BACK and is followed by
RECOVERY. -/
theorem C7_edging_machine_witness :
    ((edgingTick .BUILD_UP 0 true (some ⟨none, some ⟨30, 50, 40, 0⟩⟩) 0).promptState =
       .PULL_BACK) ∧
    (respMove (some ⟨none, some ⟨30, 50, 40, 0⟩⟩) ≠ none) ∧
    ((edgingTick .BUILD_UP 0 true (some ⟨none, some ⟨30, 50, 40, 0⟩⟩) 0).state = .RECOVERY) :=
  ⟨by decide, by decide,
   C7_edging_machine.2.1 .BUILD_UP 0 true (some ⟨none, some ⟨30, 50, 40, 0⟩⟩) 0
     (by decide) (by decide)⟩

/-- C7 is false as frozen: with the signal set and a response carrying no
move, the tick operates in PULL_BACK (incrementing the count) but ends
with the state still PULL_BACK, and the following signal-free tick
normalizes its operating state to BUILD_UP — so this PULL_BACK tick is
followed by a BUILD_UP tick, not by RECOVERY. -/
theorem C7_counterexample :
    (edgingTick .BUILD_UP 0 true none 0).promptState = .PULL_BACK ∧
    (edgingTick .BUILD_UP 0 true none 0).edgeCount = 1 ∧
    (edgingTick .BUILD_UP 0 true none 0).state = .PULL_BACK ∧
    (edgingTick (edgingTick .BUILD_UP 0 true none 0).state 1 false
        (some ⟨none, some ⟨30, 50, 40, 0⟩⟩) 0).promptState = .BUILD_UP ∧
    EState.BUILD_UP ≠ EState.RECOVERY := by
  refine ⟨by decide, by decide, by decide, by decide, by decide⟩

/-- C9 (amended): the replay handoff of `auto_mode_logic` never performs
the claimed cancel-await-start protocol: for every moves payload it
raises `UnboundLocalError` at the first read of `loop_thread` (which is
local to the function but assigned only later), so no replay session is
started there and the auto session crashes — its `AutoModeThread` wrapper
then issues exactly one device stop and runs the cleanup callback.  Even
with the intended global binding, the block would set and immediately
clear the shared stop event and start the new thread with no join of the
previous one. -/
theorem C9_session_handoff :
    (∀ mvs : List SMove, auto_handle_moves mvs = .error .unboundLocal) ∧
    autoThreadCleanupTrace.countP isStopDev = 1 ∧
    autoThreadCleanupTrace.countP (fun e => e = LEvent.onStopCb) = 1 ∧
    (∀ mvs : List SMove,
       autoMovesBlockIntended (some ⟨true⟩) mvs = [.sigSet, .sigClear, .threadStart]) ∧
    (∀ (lt : Option ThreadRef) (mvs : List SMove),
       SEv.joinAwait ∉ autoMovesBlockIntended lt mvs) := by
  refine ⟨fun mvs => rfl, by decide, by decide, fun mvs => rfl, ?_⟩
  intro lt mvs
  rcases lt with _ | t
  · simp [autoMovesBlockIntended]
  · cases ht : t.alive <;> simp [autoMovesBlockIntended, ht]

/-- C9 is false as frozen: at a concrete moves payload the handoff
evaluates to `UnboundLocalError` — it neither signals-and-awaits the
active replay session nor starts a new one, refuting the claimed
protocol. -/
theorem C9_counterexample :
    auto_handle_moves [⟨30, 50, 40, 0⟩] = .error .unboundLocal ∧
    ¬ (∃ evs : List SEv, auto_handle_moves [⟨30, 50, 40, 0⟩] = .ok evs) := by
  constructor
  · rfl
  · rintro ⟨evs, hevs⟩
    rw [show auto_handle_moves [⟨30, 50, 40, 0⟩] = .error .unboundLocal from rfl] at hevs
    cases hevs

end Strokegpt
